import Mathlib

/-!
Verification of the Gemini reverse proxy (`src/server.js`).

The development shallowly embeds the request-transformation pipeline of the
proxy: JSON bodies become a tagged tree type `JVal`, the helper functions
`extractApiKey`, `needsVersionDowngrade`, `removeUnsupportedFields` and
`makeBodyCompatible` become Lean functions that mirror the JavaScript
statement by statement, and the `app.all` handler's control flow becomes a
pure function from a request record to an `Outcome`.

Modelling conventions:
* JavaScript property access on `null` throws a `TypeError`; functions that
  can reach such an access are embedded in `Except Unit`, with `.error ()`
  standing for the thrown exception.  Property access on numbers, strings,
  booleans and arrays yields `undefined` (modelled as `none`), which is falsy.
* JSON numbers are modelled as integers; no claim depends on non-integral
  payloads, only on JavaScript truthiness (`0` is falsy).
* `JSON.parse(JSON.stringify(body))` is the identity on JSON trees, so the
  deep copy made by `makeBodyCompatible` is modelled as the identity; the
  in-place `delete` of `removeUnsupportedFields` is modelled as a pure
  transformation returning a new tree, which renders the "never mutate the
  input" contract by construction.
* Inbound HTTP header values cannot contain CR/LF (the Node HTTP parser
  rejects them), so the regex model for `Authorization` values treats line
  terminators explicitly where the JavaScript `.` metacharacter excludes them.
-/

/- JSON values as parsed by `express.json()`: the bodies the proxy
transforms.  Arrays and objects use their own spine types so that all
functions are structurally recursive (hence kernel-reducible). -/
mutual
inductive JVal where
  | null : JVal
  | bool : Bool → JVal
  | num : Int → JVal
  | str : String → JVal
  | arr : JArr → JVal
  | obj : JObj → JVal
deriving Repr
inductive JArr where
  | nil : JArr
  | cons : JVal → JArr → JArr
deriving Repr
inductive JObj where
  | nil : JObj
  | cons : String → JVal → JObj → JObj
deriving Repr
end

/-- Convenience conversion used only to write down concrete example bodies. -/
def JArr.ofList : List JVal → JArr
  | [] => .nil
  | x :: xs => .cons x (JArr.ofList xs)

/-- Convenience conversion used only to write down concrete example bodies. -/
def JObj.ofList : List (String × JVal) → JObj
  | [] => .nil
  | (k, v) :: rest => .cons k v (JObj.ofList rest)

/-- JavaScript truthiness of a JSON value: `null`, `false`, `0` and `""` are
falsy; all arrays and objects (including empty ones) are truthy. -/
def truthy : JVal → Bool
  | .null => false
  | .bool b => b
  | .num n => n != 0
  | .str s => !s.data.isEmpty
  | .arr _ => true
  | .obj _ => true

/-- Truthiness of a possibly-`undefined` JavaScript value (`none` models
`undefined`). -/
def optTruthyJ : Option JVal → Bool
  | none => false
  | some v => truthy v

/-- Key lookup in a JSON object (objects produced by `JSON.parse` have
unique keys; the first match is returned). -/
def lookupKey : JObj → String → Option JVal
  | .nil, _ => none
  | .cons k v rest, key => if k == key then some v else lookupKey rest key

/-- JavaScript property access `v[key]` for the property names the proxy
reads: on `null` it throws a `TypeError` (`.error ()`); on an object it is a
key lookup; on numbers, strings, booleans and arrays it yields `undefined`
(`none`), since none of the accessed names is a built-in property. -/
def jsProp : JVal → String → Except Unit (Option JVal)
  | .null, _ => .error ()
  | .obj kvs, key => .ok (lookupKey kvs key)
  | _, _ => .ok none

/-- Fields unsupported by `v1`, from `needsVersionDowngrade`
(src/server.js:57). -/
def unsupportedInV1 : List String := ["systemInstruction", "tool_config", "tool_calls"]

/-- Inner loop of `needsVersionDowngrade` (src/server.js:69-71): scan the
restricted names on one `part`, returning `true` at the first truthy value.
A `null` part throws on the first property access. -/
def anyTruthyProp (v : JVal) : List String → Except Unit Bool
  | [] => .ok false
  | p :: ps =>
    match jsProp v p with
    | .error e => .error e
    | .ok x => if optTruthyJ x then .ok true else anyTruthyProp v ps

/-- Loop over `parts` in `needsVersionDowngrade` (src/server.js:68-73). -/
def checkParts : JArr → Except Unit Bool
  | .nil => .ok false
  | .cons part rest =>
    match anyTruthyProp part unsupportedInV1 with
    | .error e => .error e
    | .ok b => if b then .ok true else checkParts rest

/-- Loop over `contents` in `needsVersionDowngrade` (src/server.js:66-74):
`content.parts` is read on every element (throwing when the element is
`null`), and only truthy array-valued `parts` are scanned. -/
def checkContents : JArr → Except Unit Bool
  | .nil => .ok false
  | .cons content rest =>
    match jsProp content "parts" with
    | .error e => .error e
    | .ok partsOpt =>
      match
        (match partsOpt with
         | some (.arr parts) => checkParts parts
         | _ => .ok false : Except Unit Bool)
      with
      | .error e => .error e
      | .ok b => if b then .ok true else checkContents rest

/-- Embedding of `needsVersionDowngrade` (src/server.js:54-77).  A falsy or
non-object body returns `false`; a root-level truthy restricted field
returns `true`; otherwise an array-valued `contents` is scanned.  The
result is in `Except Unit` because the scan can throw (property access on a
`null` array element). -/
def needsVersionDowngrade (body : JVal) : Except Unit Bool :=
  if !truthy body then .ok false
  else
    match body with
    | .obj kvs =>
      if unsupportedInV1.any (fun p => optTruthyJ (lookupKey kvs p)) then .ok true
      else
        match lookupKey kvs "contents" with
        | some (.arr cs) => checkContents cs
        | _ => .ok false
    | _ => .ok false

/- Embedding of `removeUnsupportedFields` (src/server.js:80-89).  The
JavaScript mutates its argument in place: it deletes the listed fields from
each object and recurses into every array element and every remaining object
value.  The pure embedding returns the resulting tree.  Scalars and `null`
are left untouched (the `obj && typeof obj === 'object'` guard). -/
mutual
def removeUnsupportedFields (fields : List String) : JVal → JVal
  | .arr xs => .arr (removeFieldsArr fields xs)
  | .obj kvs => .obj (removeFieldsObj fields kvs)
  | .null => .null
  | .bool b => .bool b
  | .num n => .num n
  | .str s => .str s
def removeFieldsArr (fields : List String) : JArr → JArr
  | .nil => .nil
  | .cons x xs => .cons (removeUnsupportedFields fields x) (removeFieldsArr fields xs)
def removeFieldsObj (fields : List String) : JObj → JObj
  | .nil => .nil
  | .cons k v rest =>
    if fields.contains k then removeFieldsObj fields rest
    else .cons k (removeUnsupportedFields fields v) (removeFieldsObj fields rest)
end

/-- Fields removed for `v1` targets, from `makeBodyCompatible`
(src/server.js:96). -/
def unsupportedFields : List String := ["systemInstruction", "tool_config", "tool_calls"]

/-- Embedding of `makeBodyCompatible` (src/server.js:91-100): falsy bodies
and non-`v1` targets are returned unchanged; for `v1` the body is deep
copied (identity on JSON trees) and recursively stripped. -/
def makeBodyCompatible (body : JVal) (targetVersion : String) : JVal :=
  if !truthy body || targetVersion != "v1" then body
  else removeUnsupportedFields unsupportedFields body

/- Occurrence of a field name as an object key anywhere in a JSON tree, at
any nesting depth (inside every object and every array element). -/
mutual
def hasFieldVal (f : String) : JVal → Bool
  | .arr xs => hasFieldArr f xs
  | .obj kvs => hasFieldObj f kvs
  | .null => false
  | .bool _ => false
  | .num _ => false
  | .str _ => false
def hasFieldArr (f : String) : JArr → Bool
  | .nil => false
  | .cons x xs => hasFieldVal f x || hasFieldArr f xs
def hasFieldObj (f : String) : JObj → Bool
  | .nil => false
  | .cons k v rest => k == f || hasFieldVal f v || hasFieldObj f rest
end

/-- Default upstream API version, `DEFAULT_API_VERSION` (src/server.js:11). -/
def DEFAULT_API_VERSION : String := "v1beta"

/-- Character-list test that `s` starts with `p` (kernel-reducible stand-in
for `String.startsWith` / the anchored part of the path regex). -/
def charsStartWith : List Char → List Char → Bool
  | _, [] => true
  | [], _ :: _ => false
  | c :: cs, p :: ps => c == p && charsStartWith cs ps

/-- String version of `charsStartWith`. -/
def strStartsWith (s p : String) : Bool := charsStartWith s.data p.data

/-- Embedding of the path regex `/^\/(v1|v1beta)\//` (src/server.js:173):
the alternation first tries `v1` (which requires the next character to be
`/`, so `/v1beta/...` falls through to the `v1beta` branch). -/
def versionFromPath (path : String) : Option String :=
  if strStartsWith path "/v1/" then some "v1"
  else if strStartsWith path "/v1beta/" then some "v1beta"
  else none

/-- Embedding of the version negotiation in the handler (src/server.js:170-179):
start from `DEFAULT_API_VERSION`, let an explicit `/v1/` or `/v1beta/` path
segment win, and otherwise consult `needsVersionDowngrade` (which may
throw). -/
def negotiateVersion (path : String) (body : JVal) : Except Unit String :=
  match versionFromPath path with
  | some v => .ok v
  | none =>
    match needsVersionDowngrade body with
    | .error e => .error e
    | .ok d => .ok (if d then "v1beta" else DEFAULT_API_VERSION)

/-- Embedding of the target-path construction (src/server.js:185-188): a path
already carrying a `/v1/`, `/v1beta/` or `/<target>/` segment is left
unchanged; any other path is prefixed with the negotiated version. -/
def rewritePath (path targetVersion : String) : String :=
  if !strStartsWith path ("/" ++ targetVersion ++ "/")
      && !strStartsWith path "/v1/" && !strStartsWith path "/v1beta/" then
    "/" ++ targetVersion ++ (if strStartsWith path "/" then "" else "/") ++ path
  else path

/-- JavaScript `\s` / `String.prototype.trim` whitespace set (ECMA-262
WhiteSpace and LineTerminator code points). -/
def jsWS (c : Char) : Bool :=
  c == '\u0009' || c == '\u000A' || c == '\u000B' || c == '\u000C' || c == '\u000D'
    || c == ' ' || c == '\u00A0' || c == '\u1680'
    || (decide ('\u2000' ≤ c) && decide (c ≤ '\u200A'))
    || c == '\u2028' || c == '\u2029' || c == '\u202F' || c == '\u205F'
    || c == '\u3000' || c == '\uFEFF'

/-- JavaScript line terminators, which the regex metacharacter `.` does not
match. -/
def isLineTerm (c : Char) : Bool :=
  c == '\u000A' || c == '\u000D' || c == '\u2028' || c == '\u2029'

/-- ASCII lower-casing; under the `i` flag non-ASCII characters never
canonicalize onto the ASCII letters of the pattern `Bearer`. -/
def asciiLower (c : Char) : Char :=
  if 'A' ≤ c && c ≤ 'Z' then Char.ofNat (c.toNat + 32) else c

/-- JavaScript `String.prototype.trim` on a character list. -/
def trimList (cs : List Char) : List Char :=
  ((cs.dropWhile jsWS).reverse.dropWhile jsWS).reverse

/-- JavaScript `String.prototype.trim`. -/
def jsTrim (s : String) : String := String.mk (trimList s.data)

/-- Embedding of `auth.match(/^Bearer\s+(.+)$/i)` (src/server.js:39),
returning the capture group when the value matches: a case-insensitive
`Bearer` prefix, at least one whitespace character, then a non-empty
remainder free of line terminators.  `\s+` is greedy, so the capture starts
at the first non-whitespace position after `Bearer` — except that when the
whole tail is whitespace the engine backtracks one character, capturing the
final whitespace character (`.` matches whitespace that is not a line
terminator). -/
def bearerTailCapture (rest : List Char) : Option (List Char) :=
  let j := min ((rest.takeWhile jsWS).length) (rest.length - 1)
  if 1 ≤ j ∧ (rest.drop j).all (fun c => !isLineTerm c) = true then some (rest.drop j)
  else none

/-- Full regex model: the `Bearer` prefix test followed by the tail match. -/
def bearerCapture (cs : List Char) : Option (List Char) :=
  if (cs.take 6).map asciiLower = "bearer".data then bearerTailCapture (cs.drop 6)
  else none

/-- Inbound request data read by the proxy: the path, the headers it
inspects (`x-goog-api-key`, `authorization`, `http-debug`), the query
parameters it inspects (`key`, `api_key`, `apikey`, `token`, `access_token`,
`debug`; `none` when absent), and the parsed JSON body. -/
structure Req where
  path : String
  xGoogApiKey : Option String
  authorization : Option String
  httpDebug : Option String
  qKey : Option String
  qApiKey : Option String
  qApikey : Option String
  qToken : Option String
  qAccessToken : Option String
  qDebug : Option String
  body : JVal

/-- JavaScript truthiness of a possibly-absent header or query string value
(absent and `""` are falsy). -/
def optTruthy : Option String → Bool
  | none => false
  | some s => !s.data.isEmpty

/-- Query-parameter fallback of `extractApiKey` (src/server.js:45-48): the
keys `key`, `api_key`, `apikey`, `token`, `access_token` in order, first
truthy value wins. -/
def queryApiKey (r : Req) : Option String :=
  if optTruthy r.qKey then r.qKey
  else if optTruthy r.qApiKey then r.qApiKey
  else if optTruthy r.qApikey then r.qApikey
  else if optTruthy r.qToken then r.qToken
  else if optTruthy r.qAccessToken then r.qAccessToken
  else none

/-- Embedding of `extractApiKey` (src/server.js:32-51): the `x-goog-api-key`
header wins if truthy; then a truthy `authorization` header is tried (the
`Bearer` capture trimmed, else the whole value trimmed when it contains no
space character); finally the query parameters. -/
def extractApiKey (r : Req) : Option String :=
  if optTruthy r.xGoogApiKey then r.xGoogApiKey
  else
    match r.authorization with
    | some auth =>
      if auth.data.isEmpty then queryApiKey r
      else
        match bearerCapture auth.data with
        | some cap => some (String.mk (trimList cap))
        | none =>
          if !auth.data.contains ' ' then some (jsTrim auth) else queryApiKey r
    | none => queryApiKey r

/-- Body of the fixed 401 response (src/server.js:160-166). -/
def err401Body : JVal :=
  .obj (JObj.ofList
    [("error", .obj (JObj.ofList
      [("code", .num 401),
       ("message", .str "API key not found"),
       ("status", .str "UNAUTHENTICATED")]))])

/-- Result of the `app.all` handler before the outbound call is performed:
the favicon 404, the debug introspection JSON (which reports whether a key
was found), the fixed 401, a thrown `TypeError` during negotiation, or the
outbound proxy call with its negotiated version, target path and
transformed body. -/
inductive Outcome where
  | notFound404 : Outcome
  | debugJson : Bool → Outcome
  | unauthorized : JVal → Outcome
  | handlerThrow : Outcome
  | proxy : String → String → JVal → Outcome
deriving Repr

/-- Embedding of the `app.all` handler's control flow up to the outbound
call (src/server.js:135-196): favicon short-circuit, key extraction, debug
branch, 401 branch, version negotiation, body compatibility transform and
path rewrite. -/
def handleRequest (r : Req) : Outcome :=
  if r.path == "/favicon.ico" then .notFound404
  else
    let apiKey := extractApiKey r
    if r.qDebug == some "true" || r.httpDebug == some "true" then
      .debugJson (optTruthy apiKey)
    else if !optTruthy apiKey then
      .unauthorized err401Body
    else
      match negotiateVersion r.path r.body with
      | .error _ => .handlerThrow
      | .ok v => .proxy v (rewritePath r.path v) (makeBodyCompatible r.body v)

/-- Upstream response as far as the relay logic inspects it. -/
structure UpstreamResp where
  status : Nat

/-- Outcome of the relay stage for the caller: the upstream response relayed
verbatim, a local 502 error response, or a terminated connection with no
error response (failure after bytes were already sent). -/
inductive RelayResult where
  | relayed : Nat → RelayResult
  | gatewayError : Nat → JVal → RelayResult
  | abortedAfterSend : RelayResult
deriving Repr

/-- Body of the 502 response (src/server.js:252-258). -/
def err502Body (msg : String) : JVal :=
  .obj (JObj.ofList
    [("error", .obj (JObj.ofList
      [("code", .num 502),
       ("message", .str ("Failed to connect to Google Gemini API: " ++ msg)),
       ("status", .str "BAD_GATEWAY")]))])

/-- Embedding of the outbound call's try/catch (src/server.js:218-260): a
successful upstream exchange is relayed with its status (any status code is
accepted, `validateStatus: () => true`); a connection failure is answered
with the fixed 502 body only when no response headers/bytes have been sent
yet (`!res.headersSent`), and otherwise produces no error response. -/
def relayUpstream (result : Except String UpstreamResp) (headersSent : Bool) : RelayResult :=
  match result with
  | .ok resp => .relayed resp.status
  | .error msg =>
    if headersSent then .abortedAfterSend
    else .gatewayError 502 (err502Body msg)

/-- Index access in a JSON array (used only to state the claim about
`contents[0].parts[2]`). -/
def JArr.get? : JArr → Nat → Option JVal
  | .nil, _ => none
  | .cons x _, 0 => some x
  | .cons _ xs, n + 1 => JArr.get? xs n

/-- Claim-shape accessor: the element `contents[0].parts[2]` of a body, when
the body has that shape. -/
def contents0parts2 (b : JVal) : Option JVal :=
  match b with
  | .obj kvs =>
    match lookupKey kvs "contents" with
    | some (.arr cs) =>
      match cs.get? 0 with
      | some (.obj ckvs) =>
        match lookupKey ckvs "parts" with
        | some (.arr ps) => ps.get? 2
        | _ => none
      | _ => none
    | _ => none
  | _ => none

/-- Claim-shape predicate: `tool_calls` occurs (at any nesting depth) inside
`contents[0].parts[2]`. -/
def hasToolCallsInPart2 (b : JVal) : Bool :=
  match contents0parts2 b with
  | some p => hasFieldVal "tool_calls" p
  | none => false

/-- Example body carrying the three restricted fields at several nesting
depths (top level, inside `contents[0].parts[0]`, and inside an unrelated
nested object). -/
def exBodyNested : JVal :=
  .obj (JObj.ofList
    [("systemInstruction", .str "be brief"),
     ("contents", .arr (JArr.ofList
       [.obj (JObj.ofList
         [("parts", .arr (JArr.ofList
           [.obj (JObj.ofList
             [("text", .str "hi"),
              ("tool_calls", .arr (JArr.ofList
                [.obj (JObj.ofList [("tool_config", .null)])]))])]))])])),
     ("extra", .obj (JObj.ofList
       [("deep", .obj (JObj.ofList [("tool_config", .bool true)]))]))])

/-- Example body with a top-level `tool_calls` field. -/
def bodyWithToolCalls : JVal := .obj (JObj.ofList [("tool_calls", .str "x")])

/-- The JSON body `{"contents":[null]}`. -/
def nullContentBody : JVal :=
  .obj (JObj.ofList [("contents", .arr (JArr.ofList [.null]))])

/-- A part whose `tool_calls` occurrence is nested one object deeper than
the part itself. -/
def part2Nested : JVal :=
  .obj (JObj.ofList [("data", .obj (JObj.ofList [("tool_calls", .arr JArr.nil)]))])

/-- Body whose `contents[0].parts[2]` contains a nested `tool_calls` but
whose `contents[0].parts[0]` is `null`. -/
def c4ThrowBody : JVal :=
  .obj (JObj.ofList
    [("contents", .arr (JArr.ofList
      [.obj (JObj.ofList
        [("parts", .arr (JArr.ofList [.null, .obj JObj.nil, part2Nested]))])]))])

/-- Body whose `contents[0].parts[2]` contains a nested `tool_calls` and
whose other parts are plain objects. -/
def c4CleanBody : JVal :=
  .obj (JObj.ofList
    [("contents", .arr (JArr.ofList
      [.obj (JObj.ofList
        [("parts", .arr (JArr.ofList
          [.obj JObj.nil, .obj JObj.nil, part2Nested]))])]))])

/-- The JSON body `{"contents":[1,null]}`. -/
def c10ThrowBody : JVal :=
  .obj (JObj.ofList [("contents", .arr (JArr.ofList [.num 1, .null]))])

/-- The JSON body `{"systemInstruction":"sys"}`. -/
def c10PlainBody : JVal :=
  .obj (JObj.ofList [("systemInstruction", .str "sys")])

/-- Request template: no headers, no query parameters, `null` body. -/
def baseReq : Req :=
  { path := "/models", xGoogApiKey := none, authorization := none, httpDebug := none,
    qKey := none, qApiKey := none, qApikey := none, qToken := none, qAccessToken := none,
    qDebug := none, body := .null }

/-- Request whose `Authorization` header is present but empty. -/
def reqEmptyAuth : Req := { baseReq with authorization := some "" }

/-- Request carrying `Authorization: Bearer abc`. -/
def reqBearer : Req :=
  { baseReq with authorization := some (String.mk ("Bearer".data ++ " ".data ++ "abc".data)) }

/-- Request with `?debug=true` and no credentials anywhere. -/
def reqDebugNoKey : Req := { baseReq with qDebug := some "true" }

/-- Request with header `http-debug: true` and no credentials anywhere. -/
def reqHdrDebug : Req := { baseReq with httpDebug := some "true" }

example : needsVersionDowngrade nullContentBody = .error () := rfl
example : needsVersionDowngrade c4ThrowBody = .error () := rfl
example : needsVersionDowngrade c4CleanBody = .ok false := rfl
example : needsVersionDowngrade c10ThrowBody = .error () := rfl
example : needsVersionDowngrade c10PlainBody = .ok true := rfl
example : needsVersionDowngrade exBodyNested = .ok true := rfl
example : hasToolCallsInPart2 c4ThrowBody = true := rfl
example : hasToolCallsInPart2 c4CleanBody = true := rfl
example : negotiateVersion "/models" c4ThrowBody = .error () := rfl
example : negotiateVersion "/models" c4CleanBody = .ok "v1beta" := rfl
example : negotiateVersion "/v1/models" c4ThrowBody = .ok "v1" := rfl
example : negotiateVersion "/v1beta/x" nullContentBody = .ok "v1beta" := rfl
example : rewritePath "/v1/models" "v1" = "/v1/models" := rfl
example : rewritePath "/models" "v1beta" = "/v1beta/models" := rfl
example :
    makeBodyCompatible exBodyNested "v1"
    = .obj (JObj.ofList
        [("contents", .arr (JArr.ofList
          [.obj (JObj.ofList
            [("parts", .arr (JArr.ofList
              [.obj (JObj.ofList [("text", .str "hi")])]))])])),
         ("extra", .obj (JObj.ofList [("deep", .obj JObj.nil)]))]) := rfl
example : makeBodyCompatible exBodyNested "v1beta" = exBodyNested := rfl
example : extractApiKey reqEmptyAuth = none := rfl
example : extractApiKey reqBearer = some "abc" := rfl
example : extractApiKey { baseReq with authorization := some "Bearer  " } = some "" := rfl
example : extractApiKey { baseReq with authorization := some "Bearer " } = none := rfl
example : extractApiKey { baseReq with authorization := some "tok-1" } = some "tok-1" := rfl
example : extractApiKey { baseReq with authorization := some " tok\t2 " } = none := rfl
example : extractApiKey { baseReq with authorization := some "bEaReR\t x " } = some "x" := rfl
example : extractApiKey { baseReq with authorization := some "a b", qToken := some "t" } = some "t" := rfl
example : handleRequest reqDebugNoKey = .debugJson false := rfl
example : handleRequest baseReq = .unauthorized err401Body := rfl
example : handleRequest { baseReq with qKey := some "K", body := bodyWithToolCalls, path := "/v1/models" }
    = .proxy "v1" "/v1/models" (.obj JObj.nil) := rfl
example : handleRequest { baseReq with qKey := some "K", body := nullContentBody }
    = .handlerThrow := rfl

/- Helper lemmas shared by several claims. -/

/- Stripping removes every occurrence of each listed field, at every
nesting depth. -/
mutual
theorem hasField_remove_val (f : String) (fields : List String) (hf : f ∈ fields) :
    (v : JVal) → hasFieldVal f (removeUnsupportedFields fields v) = false
  | .null => rfl
  | .bool _ => rfl
  | .num _ => rfl
  | .str _ => rfl
  | .arr xs => hasField_remove_arr f fields hf xs
  | .obj kvs => hasField_remove_obj f fields hf kvs
theorem hasField_remove_arr (f : String) (fields : List String) (hf : f ∈ fields) :
    (xs : JArr) → hasFieldArr f (removeFieldsArr fields xs) = false
  | .nil => rfl
  | .cons x xs => by
    simp [removeFieldsArr, hasFieldArr, hasField_remove_val f fields hf x,
      hasField_remove_arr f fields hf xs]
theorem hasField_remove_obj (f : String) (fields : List String) (hf : f ∈ fields) :
    (kvs : JObj) → hasFieldObj f (removeFieldsObj fields kvs) = false
  | .nil => rfl
  | .cons k v rest => by
    by_cases hk : k ∈ fields
    · simp [removeFieldsObj, hk, hasField_remove_obj f fields hf rest]
    · have hkf : (k == f) = false := by
        refine beq_eq_false_iff_ne.mpr ?_
        intro h
        exact hk (h ▸ hf)
      simp [removeFieldsObj, hk, hasFieldObj, hkf,
        hasField_remove_val f fields hf v, hasField_remove_obj f fields hf rest]
end

/- Stripping is idempotent (a stripped tree contains none of the listed
fields, so stripping it again changes nothing). -/
mutual
theorem rm_idem_val (fields : List String) :
    (v : JVal) → removeUnsupportedFields fields (removeUnsupportedFields fields v)
      = removeUnsupportedFields fields v
  | .null => rfl
  | .bool _ => rfl
  | .num _ => rfl
  | .str _ => rfl
  | .arr xs => by simp [removeUnsupportedFields, rm_idem_arr fields xs]
  | .obj kvs => by simp [removeUnsupportedFields, rm_idem_obj fields kvs]
theorem rm_idem_arr (fields : List String) :
    (xs : JArr) → removeFieldsArr fields (removeFieldsArr fields xs) = removeFieldsArr fields xs
  | .nil => rfl
  | .cons x xs => by
    simp [removeFieldsArr, rm_idem_val fields x, rm_idem_arr fields xs]
theorem rm_idem_obj (fields : List String) :
    (kvs : JObj) → removeFieldsObj fields (removeFieldsObj fields kvs) = removeFieldsObj fields kvs
  | .nil => rfl
  | .cons k v rest => by
    by_cases h : k ∈ fields
    · simp [removeFieldsObj, h, rm_idem_obj fields rest]
    · simp [removeFieldsObj, h, rm_idem_val fields v, rm_idem_obj fields rest]
end

/-- Stripping preserves JavaScript truthiness (it never changes the
constructor at the root). -/
theorem truthy_remove (fields : List String) (v : JVal) :
    truthy (removeUnsupportedFields fields v) = truthy v := by
  cases v <;> rfl

/-- A value containing a field as an object key is an array or an object,
hence truthy. -/
theorem truthy_of_hasField (f : String) (v : JVal) (h : hasFieldVal f v = true) :
    truthy v = true := by
  cases v <;> simp_all [hasFieldVal, truthy]

/-- Claim C1: for every JSON body, the `v1` compatibility transform
(`makeBodyCompatible` with target `v1`) returns a body in which no
occurrence of any of the fields `systemInstruction`, `tool_config`,
`tool_calls` remains at any nesting depth (inside every object and every
array element).  The input itself is a pure value and is never altered: the
JavaScript mutates only the `JSON.parse(JSON.stringify(body))` deep copy,
which the embedding renders as a pure transformation of the tree. -/
theorem C1_makeBodyCompatible_v1_strips_everywhere (b : JVal) (f : String)
    (hf : f ∈ unsupportedFields) :
    hasFieldVal f (makeBodyCompatible b "v1") = false := by
  have hv : (("v1" : String) != "v1") = false := rfl
  cases ht : truthy b
  · have hb : makeBodyCompatible b "v1" = b := by simp [makeBodyCompatible, hv, ht]
    rw [hb]
    cases b <;> simp_all [truthy, hasFieldVal]
  · have hb : makeBodyCompatible b "v1" = removeUnsupportedFields unsupportedFields b := by
      simp [makeBodyCompatible, hv, ht]
    rw [hb]
    exact hasField_remove_val f unsupportedFields hf b

/-- Claim C1 witness: the nested example body contains `tool_calls` before
the transform and no longer contains it afterwards. -/
theorem C1_witness :
    hasFieldVal "tool_calls" exBodyNested = true ∧
    hasFieldVal "tool_calls" (makeBodyCompatible exBodyNested "v1") = false :=
  ⟨rfl, C1_makeBodyCompatible_v1_strips_everywhere exBodyNested "tool_calls" (by decide)⟩

/-- Claim C2 (code bug): on the well-formed JSON body `{"contents":[null]}`
the feature detection `needsVersionDowngrade` evaluates `content.parts` with
`content = null` and throws a `TypeError` instead of treating the malformed
shape as "no feature flags found". -/
theorem C2_needsVersionDowngrade_throws_on_null_content :
    needsVersionDowngrade nullContentBody = .error () := rfl

/-- Claim C8: the `v1` compatibility transform is idempotent — applying
`makeBodyCompatible` with target `v1` twice yields the same body as applying
it once. -/
theorem C8_makeBodyCompatible_v1_idempotent (b : JVal) :
    makeBodyCompatible (makeBodyCompatible b "v1") "v1" = makeBodyCompatible b "v1" := by
  have hv : (("v1" : String) != "v1") = false := rfl
  cases ht : truthy b
  · simp [makeBodyCompatible, hv, ht]
  · simp [makeBodyCompatible, hv, ht, truthy_remove, rm_idem_val]

/-- Claim C3: for every request whose path starts with `/v1/`, the explicit
path segment wins over body feature detection — even a body containing
`tool_calls` still targets `v1`, the path is left unchanged by the rewrite,
and the compatibility transform with target `v1` removes every `tool_calls`
occurrence from the outbound body. -/
theorem C3_explicit_v1_path_wins (path : String) (b : JVal)
    (hp : strStartsWith path "/v1/" = true)
    (hb : hasFieldVal "tool_calls" b = true) :
    negotiateVersion path b = .ok "v1" ∧
    rewritePath path "v1" = path ∧
    hasFieldVal "tool_calls" (makeBodyCompatible b "v1") = false := by
  have hlit : ("/" ++ "v1" ++ "/" : String) = "/v1/" := rfl
  refine ⟨?_, ?_, ?_⟩
  · simp [negotiateVersion, versionFromPath, hp]
  · simp [rewritePath, hlit, hp]
  · have ht : truthy b = true := truthy_of_hasField "tool_calls" b hb
    have hv : (("v1" : String) != "v1") = false := rfl
    have hbody : makeBodyCompatible b "v1" = removeUnsupportedFields unsupportedFields b := by
      simp [makeBodyCompatible, hv, ht]
    rw [hbody]
    exact hasField_remove_val "tool_calls" unsupportedFields (by decide) b

/-- Claim C3 witness: the request `/v1/models` with body
`{"tool_calls":"x"}` targets `v1`, keeps its path, and the outbound body
loses the field. -/
theorem C3_witness :
    negotiateVersion "/v1/models" bodyWithToolCalls = .ok "v1" ∧
    rewritePath "/v1/models" "v1" = "/v1/models" ∧
    hasFieldVal "tool_calls" (makeBodyCompatible bodyWithToolCalls "v1") = false :=
  C3_explicit_v1_path_wins "/v1/models" bodyWithToolCalls rfl rfl

/-- Claim C4 counterexample: a version-prefix-free request whose body has
`tool_calls` nested inside `contents[0].parts[2]` but a `null` element at
`contents[0].parts[0]` makes negotiation throw (the detection scan hits the
`null` part first), so no version is selected at all — refuting the claim
as universally stated. -/
theorem C4_counterexample :
    hasToolCallsInPart2 c4ThrowBody = true ∧
    strStartsWith "/models" "/v1/" = false ∧
    strStartsWith "/models" "/v1beta/" = false ∧
    negotiateVersion "/models" c4ThrowBody = .error () :=
  ⟨rfl, rfl, rfl, rfl⟩

/-- Claim C4 (amended): for every request whose path carries no version
prefix and whose body contains `tool_calls` nested at any depth inside
`contents[0].parts[2]`, provided feature detection completes without
throwing, version negotiation selects `v1beta`. -/
theorem C4_noPrefix_nested_toolCalls_v1beta (path : String) (b : JVal) (d : Bool)
    (h1 : strStartsWith path "/v1/" = false)
    (h2 : strStartsWith path "/v1beta/" = false)
    (_hnest : hasToolCallsInPart2 b = true)
    (hok : needsVersionDowngrade b = .ok d) :
    negotiateVersion path b = .ok "v1beta" := by
  simp only [negotiateVersion, versionFromPath, h1, h2, if_false, hok]
  cases d <;> rfl

/-- Claim C4 witness: a clean body with `tool_calls` nested inside
`contents[0].parts[2]` on an unprefixed path negotiates `v1beta`. -/
theorem C4_witness : negotiateVersion "/models" c4CleanBody = .ok "v1beta" :=
  C4_noPrefix_nested_toolCalls_v1beta "/models" c4CleanBody false rfl rfl rfl rfl

/-- Claim C10 counterexample: for the version-prefix-free path `/abc` and
the body `{"contents":[1,null]}`, negotiation throws (the detection scan
reads `parts` of the `null` element), so no target version is produced —
refuting the claim's "regardless of the body's contents". -/
theorem C10_counterexample :
    strStartsWith "/abc" "/v1/" = false ∧
    strStartsWith "/abc" "/v1beta/" = false ∧
    negotiateVersion "/abc" c10ThrowBody = .error () :=
  ⟨rfl, rfl, rfl⟩

/-- Claim C10 (amended): for every request whose path starts with neither
`/v1/` nor `/v1beta/`, provided feature detection completes without
throwing, the negotiated target version is `v1beta` (detection can only
confirm the `v1beta` default), and consequently the compatibility transform
leaves the outbound body identical to the inbound body. -/
theorem C10_default_v1beta_no_strip (path : String) (b : JVal) (d : Bool)
    (h1 : strStartsWith path "/v1/" = false)
    (h2 : strStartsWith path "/v1beta/" = false)
    (hok : needsVersionDowngrade b = .ok d) :
    negotiateVersion path b = .ok "v1beta" ∧
    makeBodyCompatible b "v1beta" = b := by
  constructor
  · simp only [negotiateVersion, versionFromPath, h1, h2, if_false, hok]
    cases d <;> rfl
  · have hv : (("v1beta" : String) != "v1") = true := rfl
    simp [makeBodyCompatible, hv]

/-- Claim C10 witness: the body `{"systemInstruction":"sys"}` (which flags
the downgrade detection) on the unprefixed path `/abc` still targets
`v1beta` and is forwarded unchanged. -/
theorem C10_witness :
    negotiateVersion "/abc" c10PlainBody = .ok "v1beta" ∧
    makeBodyCompatible c10PlainBody "v1beta" = c10PlainBody :=
  C10_default_v1beta_no_strip "/abc" c10PlainBody true rfl rfl rfl

/-- Claim C6 counterexample: a request carrying `?debug=true` from which no
API key is resolvable receives the debug introspection JSON, not the 401 —
refuting the claim as stated for every key-less request. -/
theorem C6_counterexample :
    extractApiKey reqDebugNoKey = none ∧
    handleRequest reqDebugNoKey = .debugJson false ∧
    handleRequest reqDebugNoKey ≠ .unauthorized err401Body :=
  ⟨rfl, rfl, fun h => Outcome.noConfusion h⟩

/-- Claim C6 (amended): for every request that is not the favicon
short-circuit and does not request debug mode, if no API key is resolvable
the handler answers with the fixed 401 body
`{error:{code:401,message:"API key not found",status:"UNAUTHENTICATED"}}`
and the pipeline halts before any outbound call (the outcome is the 401
response, not a proxy call). -/
theorem C6_unauthenticated_401 (r : Req)
    (hfav : (r.path == "/favicon.ico") = false)
    (hd1 : (r.qDebug == some "true") = false)
    (hd2 : (r.httpDebug == some "true") = false)
    (hkey : optTruthy (extractApiKey r) = false) :
    handleRequest r = .unauthorized err401Body := by
  simp [handleRequest, hfav, hd1, hd2, hkey]

/-- Claim C6 witness: a plain request with no credentials at all receives
the 401 outcome. -/
theorem C6_witness : handleRequest baseReq = .unauthorized err401Body :=
  C6_unauthenticated_401 baseReq rfl rfl rfl rfl

/-- Claim C7: when the outbound call fails with a connection error before
any response byte has been sent, the caller receives the fixed 502 with body
`{"error":{"code":502,"message":"Failed to connect to Google Gemini API:
<reason>","status":"BAD_GATEWAY"}}`; when headers/bytes were already sent,
no error response is produced. -/
theorem C7_connection_failure_502 (msg : String) :
    relayUpstream (.error msg) false = .gatewayError 502 (err502Body msg) ∧
    relayUpstream (.error msg) true = .abortedAfterSend :=
  ⟨rfl, rfl⟩

/-- Claim C9: debug introspection is checked before authentication — every
non-favicon request with `?debug=true` or header `http-debug: true` and no
resolvable API key gets the debug JSON with `api_key_found = false`, never
the 401. -/
theorem C9_debug_before_auth (r : Req)
    (hfav : (r.path == "/favicon.ico") = false)
    (hdbg : (r.qDebug == some "true") = true ∨ (r.httpDebug == some "true") = true)
    (hkey : optTruthy (extractApiKey r) = false) :
    handleRequest r = .debugJson false := by
  rcases hdbg with h | h <;> simp [handleRequest, hfav, h, hkey]

/-- Claim C9 witness: a key-less request with header `http-debug: true`
receives the debug JSON reporting that no key was found. -/
theorem C9_witness : handleRequest reqHdrDebug = .debugJson false :=
  C9_debug_before_auth reqHdrDebug rfl (Or.inr rfl) rfl

/-- Specialization of structure eta for strings. -/
theorem strMkData (l : List Char) : (String.mk l).data = l := rfl

/-- On a run satisfying the predicate followed by a failing element,
`takeWhile` returns exactly the run. -/
theorem takeWhile_ws_append (w : List Char) (hd : Char) (tl : List Char)
    (hw : ∀ c ∈ w, jsWS c = true) (hhd : jsWS hd = false) :
    (w ++ hd :: tl).takeWhile jsWS = w := by
  induction w with
  | nil => simp [List.takeWhile_cons, hhd]
  | cons c w ih =>
    have hc : jsWS c = true := hw c (by simp)
    simp [List.takeWhile_cons, hc, ih (fun d hdm => hw d (by simp [hdm]))]

/-- The tail matcher on a non-empty whitespace run followed by a remainder
that starts with non-whitespace and holds no line terminator captures
exactly the remainder (the greedy `\s+` consumes the whole run). -/
theorem bearerTailCapture_ws (w : List Char) (hd : Char) (tl : List Char)
    (hwne : w ≠ []) (hw : ∀ c ∈ w, jsWS c = true) (hhd : jsWS hd = false)
    (hterm : ∀ c ∈ hd :: tl, isLineTerm c = false) :
    bearerTailCapture (w ++ hd :: tl) = some (hd :: tl) := by
  have htw : ((w ++ hd :: tl).takeWhile jsWS) = w := takeWhile_ws_append w hd tl hw hhd
  have hlen : (w ++ hd :: tl).length = w.length + (tl.length + 1) := by
    simp [List.length_append]
  have h1 : 1 ≤ w.length := List.length_pos.mpr hwne
  have hdropw : (w ++ hd :: tl).drop w.length = hd :: tl := List.drop_left _ _
  have hall : ((hd :: tl).all fun c => !isLineTerm c) = true := by
    rw [List.all_eq_true]
    intro c hc
    simp [hterm c hc]
  have hm : min w.length (w.length + (tl.length + 1) - 1) = w.length := by omega
  simp only [bearerTailCapture]
  rw [htw, hlen, hm, hdropw, if_pos ⟨h1, hall⟩]

/-- The regex model on `<Bearer-prefix> ++ <whitespace run> ++ <token>`
captures exactly the token. -/
theorem bearerCapture_append (p w : List Char) (hd : Char) (tl : List Char)
    (hp : p.map asciiLower = "bearer".data)
    (hwne : w ≠ []) (hw : ∀ c ∈ w, jsWS c = true)
    (hhd : jsWS hd = false) (hterm : ∀ c ∈ hd :: tl, isLineTerm c = false) :
    bearerCapture (p ++ (w ++ hd :: tl)) = some (hd :: tl) := by
  have hplen : p.length = 6 := by
    have h6 := congrArg List.length hp
    rw [List.length_map] at h6
    rw [show ("bearer".data).length = 6 from rfl] at h6
    exact h6
  have htake : ((p ++ (w ++ hd :: tl)).take 6) = p := by
    rw [← hplen]
    exact List.take_left _ _
  have hdrop : ((p ++ (w ++ hd :: tl)).drop 6) = w ++ hd :: tl := by
    rw [← hplen]
    exact List.drop_left _ _
  have hcond : (((p ++ (w ++ hd :: tl)).take 6).map asciiLower) = "bearer".data := by
    rw [htake, hp]
  simp only [bearerCapture]
  rw [if_pos hcond, hdrop]
  exact bearerTailCapture_ws w hd tl hwne hw hhd hterm

/-- Claim C5 (amended): for every request without the vendor key header —
(1) when the `Authorization` value matches `Bearer <token>` (case-insensitive
`Bearer`, then whitespace, then a token starting with non-whitespace and
free of line terminators), extraction returns the token trimmed;
(2) when the value is NON-EMPTY, does not match the Bearer pattern and
contains no space character, extraction returns the whole value trimmed;
(3) when the value contains a space, does not match the Bearer pattern and
no key-carrying query parameter is present, extraction returns absent. -/
theorem C5_extractApiKey_authorization (r : Req) (hv : r.xGoogApiKey = none) :
    (∀ (p w : List Char) (hd : Char) (tl : List Char),
      r.authorization = some (String.mk (p ++ (w ++ hd :: tl))) →
      p.map asciiLower = "bearer".data →
      w ≠ [] → (∀ c ∈ w, jsWS c = true) →
      jsWS hd = false → (∀ c ∈ hd :: tl, isLineTerm c = false) →
      extractApiKey r = some (String.mk (trimList (hd :: tl))))
    ∧ (∀ a : String, r.authorization = some a → a.data ≠ [] →
        bearerCapture a.data = none → a.data.contains ' ' = false →
        extractApiKey r = some (jsTrim a))
    ∧ (∀ a : String, r.authorization = some a →
        bearerCapture a.data = none → a.data.contains ' ' = true →
        queryApiKey r = none → extractApiKey r = none) := by
  refine ⟨?_, ?_, ?_⟩
  · intro p w hd tl hauth hp hwne hw hhd hterm
    have hcap : bearerCapture (p ++ (w ++ hd :: tl)) = some (hd :: tl) :=
      bearerCapture_append p w hd tl hp hwne hw hhd hterm
    have hplen : p.length = 6 := by
      have h6 := congrArg List.length hp
      rw [List.length_map] at h6
      rw [show ("bearer".data).length = 6 from rfl] at h6
      exact h6
    have hne : (p ++ (w ++ hd :: tl)).isEmpty = false := by
      cases p with
      | nil => simp at hplen
      | cons c cs => rfl
    simp [extractApiKey, hv, optTruthy, hauth, strMkData, hne, hcap]
  · intro a hauth hne hcap hsp
    have hae : a.data.isEmpty = false := by
      cases h : a.data with
      | nil => exact absurd h hne
      | cons c cs => rfl
    have hnm : ' ' ∉ a.data := by simpa using hsp
    simp [extractApiKey, hv, optTruthy, hauth, hae, hcap, hnm]
  · intro a hauth hcap hsp hq
    have hm : ' ' ∈ a.data := by simpa using hsp
    have hae : a.data.isEmpty = false := by
      cases h : a.data with
      | nil => rw [h] at hm; exact absurd hm (by simp)
      | cons c cs => rfl
    simp [extractApiKey, hv, optTruthy, hauth, hae, hcap, hm, hq]

/-- Claim C5 witness: `Authorization: Bearer abc` with no vendor header
extracts the key `abc`. -/
theorem C5_witness : extractApiKey reqBearer = some "abc" := by
  have h := (C5_extractApiKey_authorization reqBearer rfl).1
    "Bearer".data " ".data 'a' "bc".data rfl rfl (by decide) (by decide) (by decide) (by decide)
  exact h

/-- Claim C5 counterexample: a present-but-empty `Authorization` value
contains no space character, yet extraction returns absent rather than the
value trimmed as the key (the code treats a falsy header value as missing),
refuting the no-space clause of the claim as stated. -/
theorem C5_counterexample :
    reqEmptyAuth.authorization = some "" ∧
    (("" : String).data.contains ' ') = false ∧
    extractApiKey reqEmptyAuth = none ∧
    extractApiKey reqEmptyAuth ≠ some (jsTrim "") :=
  ⟨rfl, rfl, rfl, by decide⟩
